import Mathlib

/-!
Shallow embedding of `src/hcid/dbus-common.c` (BlueZ name-listener registry).

The C unit keeps a process-wide singly linked list `name_listeners` of
`struct name_data` records (one per watched bus name, each holding a list of
`struct name_callback` registrations) plus a flag `name_listener_initialized`
recording whether the `name_exit_filter` dispatcher has been attached to the
connection.

Modelling choices:
* Function pointers and `void *user_data` are opaque identities; we model
  both as `Nat` (equality in the C code is pointer equality).
* `malloc`/`strdup` results and the outcomes of the external D-Bus calls
  (`dbus_connection_add_filter`, `dbus_bus_add_match`,
  `dbus_bus_remove_match`) are oracles supplied as explicit boolean
  environment fields; the bus calls performed by an operation are returned
  as an event list so that theorems can count them.
* `snprintf(buf, 128, ...)` truncates its output to 127 characters plus the
  terminator; we model the string at character granularity (service names
  are ASCII), truncating the concatenation with `List.take 127`.
* Callbacks invoked by the dispatcher are recorded as an event list of
  `(func, name, user_data)` triples, in invocation order.
-/

set_option autoImplicit false

namespace DbusCommon

/-- Embedding of `struct name_callback`: a function pointer plus its `user_data`. -/
structure NameCallback where
  func : Nat
  user_data : Nat
deriving DecidableEq, Repr

/-- Embedding of `struct name_data`: a watched name and its callback list. -/
structure NameData where
  name : String
  callbacks : List NameCallback
deriving DecidableEq, Repr

/-- The mutable globals of the unit: `name_listener_initialized` and
`name_listeners`. -/
structure RegistryState where
  name_listener_initialized : Bool
  name_listeners : List NameData
deriving DecidableEq, Repr

/-- The state at process start: flag `0`, list `NULL`. -/
def initState : RegistryState := ⟨false, []⟩

/-- Outcomes of the allocations and external bus calls that a single
`name_listener_add` may perform. -/
structure AddEnv where
  add_filter_ok : Bool
  cb_alloc_ok : Bool
  data_alloc_ok : Bool
  strdup_ok : Bool
  add_match_ok : Bool
deriving DecidableEq, Repr

/-- Outcome of the `dbus_bus_remove_match` call in `name_listener_remove`. -/
structure RemoveEnv where
  remove_match_ok : Bool
deriving DecidableEq, Repr

/-- An environment in which every allocation and bus call succeeds. -/
def allOkEnv : AddEnv := ⟨true, true, true, true, true⟩

/-- External bus calls, recorded as events in the order they are made. -/
inductive BusCall where
  | addFilter (ok : Bool)
  | addMatch (rule : String)
  | removeMatch (rule : String)
deriving DecidableEq, Repr

def isAddMatch : BusCall → Bool
  | .addMatch _ => true
  | _ => false

def isAttachOk : BusCall → Bool
  | .addFilter true => true
  | _ => false

def isAddFilterCall : BusCall → Bool
  | .addFilter _ => true
  | _ => false

/-- Remove the first element satisfying `p` (the effect of `slist_remove`
applied to the node returned by a preceding find). -/
def removeFirst {α : Type} (p : α → Bool) : List α → List α
  | [] => []
  | x :: xs => if p x then xs else x :: removeFirst p xs

/-- Apply `f` to the first element satisfying `p` (in-place mutation of the
record returned by a preceding find). -/
def updateFirst {α : Type} (p : α → Bool) (f : α → α) : List α → List α
  | [] => []
  | x :: xs => if p x then f x :: xs else x :: updateFirst p f xs

/-- The C `name_data_find`: first `name_data` whose `name` compares equal. -/
def name_data_find (ls : List NameData) (name : String) : Option NameData :=
  ls.find? (fun d => d.name == name)

/-- The C `name_callback_find`: first callback with the given `func` and
`user_data` (pointer equality on both fields). -/
def name_callback_find (callbacks : List NameCallback) (func user_data : Nat) :
    Option NameCallback :=
  callbacks.find? (fun cb => cb.func == func && cb.user_data == user_data)

/-- The C `name_data_add`: allocate a callback record, create the `name_data`
entry when none exists (reporting `first = 1`), and append the record to the
entry's callback list.  Any allocation failure leaves the state unchanged
and reports `first = 0`. -/
def name_data_add (env : AddEnv) (ls : List NameData) (name : String)
    (func user_data : Nat) : Nat × List NameData :=
  if !env.cb_alloc_ok then
    (0, ls)
  else
    let cb : NameCallback := ⟨func, user_data⟩
    match name_data_find ls name with
    | some _ =>
        (0, updateFirst (fun d => d.name == name)
              (fun d => { d with callbacks := d.callbacks ++ [cb] }) ls)
    | none =>
        if !env.data_alloc_ok then (0, ls)
        else if !env.strdup_ok then (0, ls)
        else (1, ls ++ [⟨name, [cb]⟩])

/-- The C `name_data_remove`: locate the entry and the first matching callback,
splice the callback out, and drop the entry entirely when its callback list
became empty.  Absent entry or absent callback leaves the state unchanged. -/
def name_data_remove (ls : List NameData) (name : String)
    (func user_data : Nat) : List NameData :=
  match name_data_find ls name with
  | none => ls
  | some data =>
    match name_callback_find data.callbacks func user_data with
    | none => ls
    | some _ =>
      let cbs := removeFirst
          (fun cb => cb.func == func && cb.user_data == user_data) data.callbacks
      if cbs.isEmpty then
        removeFirst (fun d => d.name == name) ls
      else
        updateFirst (fun d => d.name == name)
          (fun d => { d with callbacks := cbs }) ls

/-- The constant `DBUS_INTERFACE_DBUS` from the D-Bus headers. -/
def DBUS_INTERFACE_DBUS : String := "org.freedesktop.DBus"

/-- The `snprintf(match_string, 128, "interface=%s,member=NameOwnerChanged,arg0=%s", DBUS_INTERFACE_DBUS, name)`
performed by both `name_listener_add` and `name_listener_remove`: the
formatted text truncated to the 127 characters that fit the buffer. -/
def match_string (name : String) : String :=
  ⟨(("interface=" ++ DBUS_INTERFACE_DBUS ++ ",member=NameOwnerChanged,arg0="
      ++ name).data).take 127⟩

/-- A `NameOwnerChanged`-candidate message as seen by the filter: whether
`dbus_message_is_signal` matches, whether `dbus_message_get_args` succeeds,
and the three string arguments. -/
structure DBusMessage where
  is_name_owner_changed : Bool
  args_ok : Bool
  arg_name : String
  arg_old : String
  arg_new : String
deriving DecidableEq, Repr

/-- The C `name_exit_filter`: on a well-formed `NameOwnerChanged` signal with an
empty new owner, invoke every callback of the entry for the named service
(in list order, recorded as `(func, name, user_data)` events) and then drop
the entry.  Every path returns `DBUS_HANDLER_RESULT_NOT_YET_HANDLED`, so
only the invocation events and the new listener list are modelled. -/
def name_exit_filter (ls : List NameData) (msg : DBusMessage) :
    List (Nat × String × Nat) × List NameData :=
  if !msg.is_name_owner_changed then ([], ls)
  else if !msg.args_ok then ([], ls)
  else if msg.arg_new ≠ "" then ([], ls)
  else
    match name_data_find ls msg.arg_name with
    | none => ([], ls)
    | some data =>
      (data.callbacks.map (fun cb => (cb.func, msg.arg_name, cb.user_data)),
       removeFirst (fun d => d.name == msg.arg_name) ls)

/-- The C `name_listener_add`: attach the dispatcher on the first ever call,
register the callback via `name_data_add`, and install the bus match rule
when this was the first registration for the name; a failed match install
is rolled back with `name_data_remove`.  Returns the C result (`0`/`-1`),
the new state, and the bus calls made. -/
def name_listener_add (env : AddEnv) (st : RegistryState) (name : String)
    (func user_data : Nat) : Int × RegistryState × List BusCall :=
  if !st.name_listener_initialized && !env.add_filter_ok then
    (-1, st, [.addFilter false])
  else
    let calls0 : List BusCall :=
      if st.name_listener_initialized then [] else [.addFilter true]
    let st0 : RegistryState := { st with name_listener_initialized := true }
    let res := name_data_add env st0.name_listeners name func user_data
    let st1 : RegistryState := { st0 with name_listeners := res.2 }
    if res.1 == 0 then
      (0, st1, calls0)
    else
      let rule := match_string name
      if env.add_match_ok then
        (0, st1, calls0 ++ [.addMatch rule])
      else
        (-1,
         { st1 with
             name_listeners := name_data_remove st1.name_listeners name func user_data },
         calls0 ++ [.addMatch rule])

/-- The C `name_listener_remove`: fail when the name or the callback is unknown;
otherwise splice the callback out of the entry's list, and — when it was the
last one — call `dbus_bus_remove_match` and, on success, `name_data_remove`.
Returns the C result (`0`/`-1`), the new state, and the bus calls made. -/
def name_listener_remove (env : RemoveEnv) (st : RegistryState) (name : String)
    (func user_data : Nat) : Int × RegistryState × List BusCall :=
  match name_data_find st.name_listeners name with
  | none => (-1, st, [])
  | some data =>
    match name_callback_find data.callbacks func user_data with
    | none => (-1, st, [])
    | some _ =>
      let cbs := removeFirst
          (fun cb => cb.func == func && cb.user_data == user_data) data.callbacks
      let ls1 := updateFirst (fun d => d.name == name)
          (fun d => { d with callbacks := cbs }) st.name_listeners
      if !cbs.isEmpty then
        (0, { st with name_listeners := ls1 }, [])
      else
        let rule := match_string name
        if !env.remove_match_ok then
          (-1, { st with name_listeners := ls1 }, [.removeMatch rule])
        else
          (0, { st with name_listeners := name_data_remove ls1 name func user_data },
           [.removeMatch rule])

/-- One externally triggered operation on the unit. -/
inductive Op where
  | add (env : AddEnv) (name : String) (func user_data : Nat)
  | remove (env : RemoveEnv) (name : String) (func user_data : Nat)
  | dispatch (msg : DBusMessage)

/-- The service name an operation is about. -/
def opName : Op → String
  | .add _ n _ _ => n
  | .remove _ n _ _ => n
  | .dispatch msg => msg.arg_name

/-- Execute one operation: the new state and the bus calls it made. -/
def step (st : RegistryState) (op : Op) : RegistryState × List BusCall :=
  match op with
  | .add env n f u =>
      let r := name_listener_add env st n f u
      (r.2.1, r.2.2)
  | .remove env n f u =>
      let r := name_listener_remove env st n f u
      (r.2.1, r.2.2)
  | .dispatch msg =>
      let r := name_exit_filter st.name_listeners msg
      ({ st with name_listeners := r.2 }, [])

/-- Execute a sequence of operations, accumulating the bus calls. -/
def run (st : RegistryState) : List Op → RegistryState × List BusCall
  | [] => (st, [])
  | op :: ops =>
      let r := step st op
      let r' := run r.1 ops
      (r'.1, r.2 ++ r'.2)

/-- A sequence of `add` calls for one name in an all-success environment. -/
def addsFor (n : String) (ps : List (Nat × Nat)) : List Op :=
  ps.map (fun p => Op.add allOkEnv n p.1 p.2)

/-! ### Generic lemmas about `removeFirst`, `updateFirst` and `List.find?` -/

theorem removeFirst_of_neg {α : Type} {p : α → Bool} {ls : List α}
    (h : ∀ x ∈ ls, p x = false) : removeFirst p ls = ls := by
  induction ls with
  | nil => rfl
  | cons x xs ih =>
    simp only [removeFirst, h x (List.mem_cons_self x xs), Bool.false_eq_true,
      if_false, List.cons.injEq, true_and]
    exact ih fun y hy => h y (List.mem_cons_of_mem x hy)

theorem removeFirst_append_of_neg {α : Type} {p : α → Bool} {ls l2 : List α}
    (h : ∀ x ∈ ls, p x = false) :
    removeFirst p (ls ++ l2) = ls ++ removeFirst p l2 := by
  induction ls with
  | nil => rfl
  | cons x xs ih =>
    simp only [List.cons_append, removeFirst, h x (List.mem_cons_self x xs),
      Bool.false_eq_true, if_false, List.cons.injEq, true_and]
    exact ih fun y hy => h y (List.mem_cons_of_mem x hy)

theorem updateFirst_append_of_neg {α : Type} {p : α → Bool} {f : α → α} {ls l2 : List α}
    (h : ∀ x ∈ ls, p x = false) :
    updateFirst p f (ls ++ l2) = ls ++ updateFirst p f l2 := by
  induction ls with
  | nil => rfl
  | cons x xs ih =>
    simp only [List.cons_append, updateFirst, h x (List.mem_cons_self x xs),
      Bool.false_eq_true, if_false, List.cons.injEq, true_and]
    exact ih fun y hy => h y (List.mem_cons_of_mem x hy)

theorem find?_removeFirst {α : Type} {p q : α → Bool} {ls : List α}
    (h : ∀ x, p x = true → q x = false) :
    (removeFirst p ls).find? q = ls.find? q := by
  induction ls with
  | nil => rfl
  | cons x xs ih =>
    cases hx : p x with
    | true => simp [removeFirst, hx, List.find?_cons, h x hx]
    | false => cases hq : q x <;> simp [removeFirst, hx, List.find?_cons, hq, ih]

theorem find?_updateFirst {α : Type} {p q : α → Bool} {f : α → α} {ls : List α}
    (h : ∀ x, p x = true → q x = false ∧ q (f x) = false) :
    (updateFirst p f ls).find? q = ls.find? q := by
  induction ls with
  | nil => rfl
  | cons x xs ih =>
    cases hx : p x with
    | true => simp [updateFirst, hx, List.find?_cons, (h x hx).1, (h x hx).2]
    | false => cases hq : q x <;> simp [updateFirst, hx, List.find?_cons, hq, ih]

theorem find?_updateFirst_self {α : Type} {p : α → Bool} {f : α → α} {ls : List α}
    (h : ∀ x, p x = true → p (f x) = true) :
    (updateFirst p f ls).find? p = (ls.find? p).map f := by
  induction ls with
  | nil => rfl
  | cons x xs ih =>
    cases hx : p x with
    | true => simp [updateFirst, hx, List.find?_cons, h x hx]
    | false => simp [updateFirst, hx, List.find?_cons, ih]

theorem updateFirst_middle {α : Type} {p : α → Bool} {f : α → α} {ls rs : List α} {d : α}
    (h : ∀ x ∈ ls, p x = false) (hd : p d = true) :
    updateFirst p f (ls ++ d :: rs) = ls ++ f d :: rs := by
  rw [updateFirst_append_of_neg h]
  simp [updateFirst, hd]

theorem removeFirst_middle {α : Type} {p : α → Bool} {ls rs : List α} {d : α}
    (h : ∀ x ∈ ls, p x = false) (hd : p d = true) :
    removeFirst p (ls ++ d :: rs) = ls ++ rs := by
  rw [removeFirst_append_of_neg h]
  simp [removeFirst, hd]

theorem find?_middle {α : Type} {p : α → Bool} {ls rs : List α} {d : α}
    (h : ∀ x ∈ ls, p x = false) (hd : p d = true) :
    (ls ++ d :: rs).find? p = some d := by
  induction ls with
  | nil => simp [List.find?_cons, hd]
  | cons x xs ih =>
    simp only [List.cons_append, List.find?_cons, h x (List.mem_cons_self x xs)]
    exact ih fun y hy => h y (List.mem_cons_of_mem x hy)

theorem find?_append_single_neg {α : Type} {p : α → Bool} {ls : List α} {d : α}
    (hd : p d = false) :
    (ls ++ [d]).find? p = ls.find? p := by
  rw [List.find?_append]
  cases hls : ls.find? p <;> simp [List.find?_cons, hd]

/-! ### Behaviour lemmas for the registry operations -/

theorem name_beq_false_of_ne {n m : String} (h : m ≠ n) {d : NameData}
    (hd : (d.name == n) = true) : (d.name == m) = false := by
  have hdn : d.name = n := eq_of_beq hd
  subst hdn
  exact beq_eq_false_iff_ne.mpr fun hnm => h hnm.symm

/-- The helper `name_data_add` never touches the entry of a different name. -/
theorem name_data_find_frame_add (env : AddEnv) (ls : List NameData) (n : String)
    (f u : Nat) {m : String} (h : m ≠ n) :
    name_data_find (name_data_add env ls n f u).2 m = name_data_find ls m := by
  cases hcb : env.cb_alloc_ok with
  | false => simp [name_data_add, hcb]
  | true =>
    cases hfind : name_data_find ls n with
    | some d =>
      simp only [name_data_add, hcb, Bool.not_true, Bool.false_eq_true, if_false, hfind]
      exact find?_updateFirst fun x hx => ⟨name_beq_false_of_ne h hx, name_beq_false_of_ne h hx⟩
    | none =>
      cases hda : env.data_alloc_ok with
      | false => simp [name_data_add, hcb, hfind, hda]
      | true =>
        cases hsd : env.strdup_ok with
        | false => simp [name_data_add, hcb, hfind, hda, hsd]
        | true =>
          simp only [name_data_add, hcb, Bool.not_true, Bool.false_eq_true, if_false,
            hfind, hda, hsd]
          exact find?_append_single_neg (beq_eq_false_iff_ne.mpr fun hnm => h hnm.symm)

/-- The helper `name_data_remove` never touches the entry of a different name. -/
theorem name_data_find_frame_remove (ls : List NameData) (n : String)
    (f u : Nat) {m : String} (h : m ≠ n) :
    name_data_find (name_data_remove ls n f u) m = name_data_find ls m := by
  cases hfind : name_data_find ls n with
  | none => simp [name_data_remove, hfind]
  | some d =>
    cases hcb : name_callback_find d.callbacks f u with
    | none => simp [name_data_remove, hfind, hcb]
    | some cb =>
      simp only [name_data_remove, hfind, hcb]
      split
      · exact find?_removeFirst fun x hx => name_beq_false_of_ne h hx
      · exact find?_updateFirst fun x hx => ⟨name_beq_false_of_ne h hx, name_beq_false_of_ne h hx⟩

/-- An `add` for an already-watched name in an environment where the
callback allocation succeeds: appends the callback to the existing entry,
returns 0, makes no bus call. -/
theorem name_listener_add_existing {env : AddEnv} {st : RegistryState} {n : String}
    {d : NameData} (f u : Nat)
    (hcb : env.cb_alloc_ok = true)
    (hinit : st.name_listener_initialized = true)
    (hfind : name_data_find st.name_listeners n = some d) :
    name_listener_add env st n f u =
      (0, ⟨true, updateFirst (fun x => x.name == n)
              (fun x => { x with callbacks := x.callbacks ++ [⟨f, u⟩] }) st.name_listeners⟩,
       []) := by
  obtain ⟨b, ls⟩ := st
  cases hinit
  simp [name_listener_add, name_data_add, hcb, hfind]

/-- A fully successful first `add` for a name: appends a fresh entry at the
end of the listener list and installs one match rule (attaching the filter
first when that had not happened yet). -/
theorem name_listener_add_first_ok {st : RegistryState} {n : String} (f u : Nat)
    (hfind : name_data_find st.name_listeners n = none) :
    name_listener_add allOkEnv st n f u =
      (0, ⟨true, st.name_listeners ++ [⟨n, [⟨f, u⟩]⟩]⟩,
       (if st.name_listener_initialized then [] else [.addFilter true]) ++
         [.addMatch (match_string n)]) := by
  obtain ⟨b, ls⟩ := st
  cases b <;> simp [name_listener_add, name_data_add, allOkEnv, hfind]

/-- Running further all-success `add` calls for a name that already has an
entry: each call appends its callback to that entry's list and no bus call
at all is made. -/
theorem run_addsFor_existing (ps : List (Nat × Nat)) (ls rs : List NameData)
    (n : String) (cs : List NameCallback)
    (hls : ∀ d ∈ ls, (d.name == n) = false) :
    run ⟨true, ls ++ ⟨n, cs⟩ :: rs⟩ (addsFor n ps) =
      (⟨true, ls ++ ⟨n, cs ++ ps.map (fun q => ⟨q.1, q.2⟩)⟩ :: rs⟩, []) := by
  induction ps generalizing cs with
  | nil => simp [run, addsFor]
  | cons p ps ih =>
    have hfind : name_data_find (ls ++ ⟨n, cs⟩ :: rs) n = some ⟨n, cs⟩ :=
      find?_middle hls (by simp)
    have hstep := @name_listener_add_existing allOkEnv ⟨true, ls ++ ⟨n, cs⟩ :: rs⟩ n
      ⟨n, cs⟩ p.1 p.2 rfl rfl hfind
    simp only [addsFor, List.map_cons, run, step, hstep]
    rw [updateFirst_middle hls (by simp)]
    have hih := ih (cs ++ [⟨p.1, p.2⟩])
    simp only [addsFor] at hih
    simp [hih]

/-- C1: starting from a state with no subscription for `n`, a sequence of
successful `add` calls for `n` makes the `dbus_bus_add_match` call exactly
once, on the first of them; the later calls make no bus call at all and
only append their registrations to the entry for `n`. -/
theorem C1_match_rule_installed_once (st : RegistryState) (n : String)
    (hfind : name_data_find st.name_listeners n = none)
    (p : Nat × Nat) (ps : List (Nat × Nat)) :
    ((step st (Op.add allOkEnv n p.1 p.2)).2.filter isAddMatch
        = [BusCall.addMatch (match_string n)])
    ∧ (run (step st (Op.add allOkEnv n p.1 p.2)).1 (addsFor n ps)).2 = []
    ∧ ((run st (addsFor n (p :: ps))).2.filter isAddMatch
        = [BusCall.addMatch (match_string n)])
    ∧ (name_data_find (run st (addsFor n (p :: ps))).1.name_listeners n
        = some ⟨n, (p :: ps).map (fun q => ⟨q.1, q.2⟩)⟩) := by
  have hstep := @name_listener_add_first_ok st n p.1 p.2 hfind
  have hfind' : st.name_listeners.find? (fun d => d.name == n) = none := hfind
  have hls : ∀ d ∈ st.name_listeners, (d.name == n) = false := by
    intro d hd
    simpa using List.find?_eq_none.mp hfind' d hd
  have hrun := run_addsFor_existing ps st.name_listeners [] n [⟨p.1, p.2⟩] hls
  refine ⟨?_, ?_, ?_, ?_⟩
  · simp only [step, hstep]
    cases st.name_listener_initialized <;> simp [isAddMatch]
  · simp only [step, hstep]
    simpa using congrArg Prod.snd hrun
  · simp only [addsFor, List.map_cons, run, step, hstep]
    have := congrArg Prod.snd hrun
    simp only [addsFor] at this
    simp only [List.append_eq, this]
    cases st.name_listener_initialized <;> simp [isAddMatch]
  · simp only [addsFor, List.map_cons, run, step, hstep]
    have := congrArg Prod.fst hrun
    simp only [addsFor] at this
    simp only [List.append_eq, this]
    exact find?_middle hls (by simp)

/-- Witness for C1: two adds for the same name from the initial state. -/
theorem C1_match_rule_installed_once_witness :
    name_data_find initState.name_listeners "svc" = none ∧
    (((step initState (Op.add allOkEnv "svc" 1 2)).2.filter isAddMatch
        = [BusCall.addMatch (match_string "svc")])
    ∧ (run (step initState (Op.add allOkEnv "svc" 1 2)).1 (addsFor "svc" [(3, 4)])).2 = []
    ∧ ((run initState (addsFor "svc" ((1, 2) :: [(3, 4)]))).2.filter isAddMatch
        = [BusCall.addMatch (match_string "svc")])
    ∧ (name_data_find (run initState (addsFor "svc" ((1, 2) :: [(3, 4)]))).1.name_listeners "svc"
        = some ⟨"svc", ((1, 2) :: [(3, 4)]).map (fun q => ⟨q.1, q.2⟩)⟩)) :=
  ⟨rfl, C1_match_rule_installed_once initState "svc" rfl (1, 2) [(3, 4)]⟩

/-- C5: when the bus match install fails on a first-for-name `add` (all
allocations succeeded, so the registration and subscription were just
created), the call returns `-1` and rolls the listener list back to exactly
what it was before the call. -/
theorem C5_rollback_on_match_failure (st : RegistryState) (n : String) (f u : Nat)
    (env : AddEnv)
    (hcb : env.cb_alloc_ok = true) (hda : env.data_alloc_ok = true)
    (hsd : env.strdup_ok = true) (hmatch : env.add_match_ok = false)
    (hfilter : st.name_listener_initialized = true ∨ env.add_filter_ok = true)
    (hfind : name_data_find st.name_listeners n = none) :
    (name_listener_add env st n f u).1 = -1
    ∧ (name_listener_add env st n f u).2.1.name_listeners = st.name_listeners := by
  obtain ⟨b, ls⟩ := st
  have hfind' : ls.find? (fun d => d.name == n) = none := hfind
  have hls : ∀ d ∈ ls, (d.name == n) = false := fun d hd => by
    simpa using List.find?_eq_none.mp hfind' d hd
  have hfind2 : name_data_find (ls ++ [⟨n, [⟨f, u⟩]⟩]) n = some ⟨n, [⟨f, u⟩]⟩ :=
    find?_middle hls (by simp)
  have hrb : name_data_remove (ls ++ [⟨n, [⟨f, u⟩]⟩]) n f u = ls := by
    have hrm : removeFirst (fun d : NameData => d.name == n) (ls ++ [⟨n, [⟨f, u⟩]⟩]) = ls := by
      simpa using @removeFirst_middle _ _ _ [] _ hls (by simp)
    simp [name_data_remove, hfind2, name_callback_find, List.find?_cons, removeFirst, hrm]
  cases b with
  | false =>
    have hfo : env.add_filter_ok = true := hfilter.resolve_left (by simp)
    simp [name_listener_add, name_data_add, hcb, hda, hsd, hmatch, hfo, hfind, hrb]
  | true =>
    simp [name_listener_add, name_data_add, hcb, hda, hsd, hmatch, hfind, hrb]

/-- Witness for C5: match install fails on the very first add. -/
theorem C5_rollback_on_match_failure_witness :
    name_data_find initState.name_listeners "svc" = none ∧
    ((name_listener_add ⟨true, true, true, true, false⟩ initState "svc" 1 2).1 = -1
     ∧ (name_listener_add ⟨true, true, true, true, false⟩ initState "svc" 1 2).2.1.name_listeners
         = initState.name_listeners) :=
  ⟨rfl, C5_rollback_on_match_failure initState "svc" 1 2 ⟨true, true, true, true, false⟩
      rfl rfl rfl rfl (Or.inr rfl) rfl⟩

/-- C4 (amended): an allocation failure inside `name_data_add` makes the
public `add` return `0` — indistinguishable from a successful non-first
registration — while creating nothing: the listener list is unchanged and
no match rule is installed. -/
theorem C4_alloc_failure_returns_zero (st : RegistryState) (n : String) (f u : Nat)
    (env : AddEnv)
    (hfilter : st.name_listener_initialized = true ∨ env.add_filter_ok = true)
    (halloc : env.cb_alloc_ok = false
        ∨ (name_data_find st.name_listeners n = none
            ∧ (env.data_alloc_ok = false ∨ env.strdup_ok = false))) :
    (name_listener_add env st n f u).1 = 0
    ∧ (name_listener_add env st n f u).2.1.name_listeners = st.name_listeners
    ∧ (name_listener_add env st n f u).2.2.filter isAddMatch = [] := by
  obtain ⟨b, ls⟩ := st
  have hadd : name_data_add env ls n f u = (0, ls) := by
    rcases halloc with hcb | ⟨hfind, hrest⟩
    · simp [name_data_add, hcb]
    · rcases hrest with hda | hsd
      · cases hcb : env.cb_alloc_ok <;> simp [name_data_add, hcb, hfind, hda]
      · cases hcb : env.cb_alloc_ok <;> cases hda : env.data_alloc_ok <;>
          simp [name_data_add, hcb, hda, hfind, hsd]
  cases b with
  | false =>
    have hfo : env.add_filter_ok = true := hfilter.resolve_left (by simp)
    simp [name_listener_add, hadd, hfo, isAddMatch]
  | true =>
    simp [name_listener_add, hadd, isAddMatch]

/-- Witness for C4 (amended): callback allocation fails on the first add. -/
theorem C4_alloc_failure_returns_zero_witness :
    ((⟨true, false, true, true, true⟩ : AddEnv).cb_alloc_ok = false
      ∨ (name_data_find initState.name_listeners "svc" = none
          ∧ ((⟨true, false, true, true, true⟩ : AddEnv).data_alloc_ok = false
              ∨ (⟨true, false, true, true, true⟩ : AddEnv).strdup_ok = false))) ∧
    ((name_listener_add ⟨true, false, true, true, true⟩ initState "svc" 1 2).1 = 0
     ∧ (name_listener_add ⟨true, false, true, true, true⟩ initState "svc" 1 2).2.1.name_listeners
         = initState.name_listeners
     ∧ (name_listener_add ⟨true, false, true, true, true⟩ initState "svc" 1 2).2.2.filter isAddMatch
         = []) :=
  ⟨Or.inl rfl, C4_alloc_failure_returns_zero initState "svc" 1 2
      ⟨true, false, true, true, true⟩ (Or.inr rfl) (Or.inl rfl)⟩

/-- C4 counterexample: with the callback allocation failing, `add` returns
`0` — not the `-1` the claim states — and registers nothing. -/
theorem C4_counterexample :
    (name_listener_add ⟨true, false, true, true, true⟩ initState "svc" 1 2).1 = 0
    ∧ (name_listener_add ⟨true, false, true, true, true⟩ initState "svc" 1 2).1 ≠ -1
    ∧ (name_listener_add ⟨true, false, true, true, true⟩ initState "svc" 1 2).2.1.name_listeners
        = [] := by
  decide

/-- C2 (amended): removing the last registration of a name when the bus
match-rule removal fails returns `-1`, but the registry is NOT left exactly
as before the call: the entry for the name survives with an already emptied
callback list, and the removed registration is no longer locatable — a
second identical `remove` fails with `-1`. -/
theorem C2_remove_failure_leaves_empty_entry (st : RegistryState) (n : String)
    (f u : Nat) (d : NameData)
    (hfind : name_data_find st.name_listeners n = some d)
    (hone : d.callbacks = [⟨f, u⟩]) :
    (name_listener_remove ⟨false⟩ st n f u).1 = -1
    ∧ name_data_find (name_listener_remove ⟨false⟩ st n f u).2.1.name_listeners n
        = some ⟨n, []⟩
    ∧ (name_listener_remove ⟨false⟩
        (name_listener_remove ⟨false⟩ st n f u).2.1 n f u).1 = -1 := by
  have hfind' : st.name_listeners.find? (fun x => x.name == n) = some d := hfind
  have hpd := List.find?_some hfind'
  have hdn : d.name = n := eq_of_beq hpd
  have hcbfind : name_callback_find d.callbacks f u = some ⟨f, u⟩ := by
    simp [name_callback_find, hone, List.find?_cons]
  have hcbs : removeFirst (fun cb => cb.func == f && cb.user_data == u) d.callbacks = [] := by
    simp [hone, removeFirst]
  have hred : name_listener_remove ⟨false⟩ st n f u
      = (-1,
         RegistryState.mk st.name_listener_initialized
           (updateFirst (fun x => x.name == n)
             (fun x => { x with callbacks := [] }) st.name_listeners),
         [.removeMatch (match_string n)]) := by
    simp [name_listener_remove, hfind, hcbfind, hcbs]
  have hfindls1 : name_data_find (updateFirst (fun x : NameData => x.name == n)
      (fun x => { x with callbacks := [] }) st.name_listeners) n = some ⟨n, []⟩ := by
    have hu : (updateFirst (fun x : NameData => x.name == n)
          (fun x => { x with callbacks := [] }) st.name_listeners).find?
            (fun x : NameData => x.name == n)
        = (st.name_listeners.find? (fun x : NameData => x.name == n)).map
            (fun x => { x with callbacks := [] }) :=
      find?_updateFirst_self (fun x hx => hx)
    show (updateFirst _ _ st.name_listeners).find? _ = _
    rw [hu, hfind']
    simp [hdn]
  refine ⟨by rw [hred], by rw [hred]; exact hfindls1, ?_⟩
  rw [hred]
  simp [name_listener_remove, hfindls1, name_callback_find]

/-- Witness for C2 (amended) at a one-registration registry. -/
theorem C2_remove_failure_leaves_empty_entry_witness :
    name_data_find (⟨true, [⟨"svc", [⟨1, 2⟩]⟩]⟩ : RegistryState).name_listeners "svc"
      = some ⟨"svc", [⟨1, 2⟩]⟩ ∧
    ((name_listener_remove ⟨false⟩ ⟨true, [⟨"svc", [⟨1, 2⟩]⟩]⟩ "svc" 1 2).1 = -1
     ∧ name_data_find (name_listener_remove ⟨false⟩ ⟨true, [⟨"svc", [⟨1, 2⟩]⟩]⟩
          "svc" 1 2).2.1.name_listeners "svc" = some ⟨"svc", []⟩
     ∧ (name_listener_remove ⟨false⟩
          (name_listener_remove ⟨false⟩ ⟨true, [⟨"svc", [⟨1, 2⟩]⟩]⟩ "svc" 1 2).2.1
          "svc" 1 2).1 = -1) :=
  ⟨rfl, C2_remove_failure_leaves_empty_entry ⟨true, [⟨"svc", [⟨1, 2⟩]⟩]⟩ "svc" 1 2
      ⟨"svc", [⟨1, 2⟩]⟩ rfl rfl⟩

/-- C2 counterexample: the claim says the registry is left exactly as it
was and the registration stays locatable; in fact the state differs (the
callback list was emptied) and a subsequent identical `remove` fails. -/
theorem C2_counterexample :
    (name_listener_remove ⟨false⟩ ⟨true, [⟨"svc", [⟨1, 2⟩]⟩]⟩ "svc" 1 2).1 = -1
    ∧ (name_listener_remove ⟨false⟩ ⟨true, [⟨"svc", [⟨1, 2⟩]⟩]⟩ "svc" 1 2).2.1
        ≠ ⟨true, [⟨"svc", [⟨1, 2⟩]⟩]⟩
    ∧ (name_listener_remove ⟨true⟩
        (name_listener_remove ⟨false⟩ ⟨true, [⟨"svc", [⟨1, 2⟩]⟩]⟩ "svc" 1 2).2.1
        "svc" 1 2).1 = -1 := by
  decide

/-- C3: the code violates the invariant that an empty-callback-list
subscription never persists.  After a single `add` and a fully successful
`remove` of that last registration, `name_listener_remove` has already
spliced the callback out, so its final `name_data_remove` finds no matching
callback and destroys nothing: the run ends with the entry for the name
still present and holding an empty callback list, even though the `remove`
reported success. -/
theorem C3_empty_subscription_persists :
    (run initState [Op.add allOkEnv "svc" 1 2, Op.remove ⟨true⟩ "svc" 1 2]).1
      = ⟨true, [⟨"svc", []⟩]⟩
    ∧ (name_listener_remove ⟨true⟩ ⟨true, [⟨"svc", [⟨1, 2⟩]⟩]⟩ "svc" 1 2).1 = 0 := by
  decide

theorem name_data_find_eq_none_of_not_mem {ls : List NameData} {n : String}
    (h : n ∉ ls.map NameData.name) : name_data_find ls n = none := by
  apply List.find?_eq_none.mpr
  intro d hd hbeq
  exact h (List.mem_map.mpr ⟨d, hd, eq_of_beq hbeq⟩)

/-- Removing the (unique, by nodup) entry of a name leaves no entry for it. -/
theorem find?_removeFirst_self_of_nodup {ls : List NameData} {n : String}
    (hnd : (ls.map NameData.name).Nodup) :
    name_data_find (removeFirst (fun d => d.name == n) ls) n = none := by
  induction ls with
  | nil => rfl
  | cons x xs ih =>
    simp only [List.map_cons, List.nodup_cons] at hnd
    obtain ⟨hx, hxs⟩ := hnd
    cases hb : (x.name == n) with
    | true =>
      have hxn : x.name = n := eq_of_beq hb
      simp only [removeFirst, hb, if_true]
      exact name_data_find_eq_none_of_not_mem (hxn ▸ hx)
    | false =>
      simpa [removeFirst, hb, name_data_find, List.find?_cons] using ih hxs

/-- C6: a well-formed `NameOwnerChanged` notification with an empty new
owner for a watched name makes the dispatcher invoke exactly the
registered callbacks, once each and in registration order, with the name
and their own contexts, and destroys the entry: no registration for the
name remains afterwards. -/
theorem C6_dispatch_owner_loss (st : RegistryState) (msg : DBusMessage) (d : NameData)
    (hnd : (st.name_listeners.map NameData.name).Nodup)
    (hsig : msg.is_name_owner_changed = true)
    (hargs : msg.args_ok = true)
    (hnew : msg.arg_new = "")
    (hfind : name_data_find st.name_listeners msg.arg_name = some d) :
    (name_exit_filter st.name_listeners msg).1
        = d.callbacks.map (fun cb => (cb.func, msg.arg_name, cb.user_data))
    ∧ name_data_find (name_exit_filter st.name_listeners msg).2 msg.arg_name = none := by
  have hred : name_exit_filter st.name_listeners msg
      = (d.callbacks.map (fun cb => (cb.func, msg.arg_name, cb.user_data)),
         removeFirst (fun x => x.name == msg.arg_name) st.name_listeners) := by
    simp [name_exit_filter, hsig, hargs, hnew, hfind]
  rw [hred]
  exact ⟨rfl, find?_removeFirst_self_of_nodup hnd⟩

/-- Witness for C6: two registrations for one name, loss notification. -/
theorem C6_dispatch_owner_loss_witness :
    ((([⟨"svc", [⟨1, 2⟩, ⟨3, 4⟩]⟩] : List NameData).map NameData.name).Nodup) ∧
    ((name_exit_filter [⟨"svc", [⟨1, 2⟩, ⟨3, 4⟩]⟩] ⟨true, true, "svc", "old", ""⟩).1
        = ([⟨1, 2⟩, ⟨3, 4⟩] : List NameCallback).map (fun cb => (cb.func, "svc", cb.user_data))
     ∧ name_data_find
          (name_exit_filter [⟨"svc", [⟨1, 2⟩, ⟨3, 4⟩]⟩] ⟨true, true, "svc", "old", ""⟩).2
          "svc" = none) :=
  ⟨by simp, C6_dispatch_owner_loss ⟨true, [⟨"svc", [⟨1, 2⟩, ⟨3, 4⟩]⟩]⟩
      ⟨true, true, "svc", "old", ""⟩ ⟨"svc", [⟨1, 2⟩, ⟨3, 4⟩]⟩ (by simp) rfl rfl rfl rfl⟩

/-- For a name whose formatted filter fits the 128-byte buffer, no
truncation happens and the string is the exact concatenation. -/
theorem match_string_of_short {n : String} (h : n.length ≤ 67) :
    match_string n
      = "interface=" ++ DBUS_INTERFACE_DBUS ++ ",member=NameOwnerChanged,arg0=" ++ n := by
  have hl : n.data.length ≤ 67 := h
  have hpre : ("interface=" ++ DBUS_INTERFACE_DBUS
      ++ ",member=NameOwnerChanged,arg0=").data.length = 60 := by decide
  have hdata : ("interface=" ++ DBUS_INTERFACE_DBUS
      ++ ",member=NameOwnerChanged,arg0=" ++ n).data.length ≤ 127 := by
    rw [String.data_append, List.length_append, hpre]
    omega
  show String.mk _ = _
  rw [List.take_of_length_le hdata]

/-- C7 (amended): the filter text handed to the bus by both the
match-install of a first-for-name `add` and the match-removal of a
last-registration `remove` is
`interface=org.freedesktop.DBus,member=NameOwnerChanged,arg0=<name>`
truncated to the 127 characters that fit the 128-byte buffer; for names of
at most 67 characters it is exactly that concatenation. -/
theorem C7_filter_string (st st2 : RegistryState) (n : String) (f u : Nat) (d : NameData)
    (hlen : n.length ≤ 67)
    (hfind : name_data_find st.name_listeners n = none)
    (hfind2 : name_data_find st2.name_listeners n = some d)
    (hone : d.callbacks = [⟨f, u⟩]) :
    (name_listener_add allOkEnv st n f u).2.2.filter isAddMatch
        = [BusCall.addMatch ("interface=" ++ DBUS_INTERFACE_DBUS
            ++ ",member=NameOwnerChanged,arg0=" ++ n)]
    ∧ (name_listener_remove ⟨true⟩ st2 n f u).2.2
        = [BusCall.removeMatch ("interface=" ++ DBUS_INTERFACE_DBUS
            ++ ",member=NameOwnerChanged,arg0=" ++ n)] := by
  have hms := match_string_of_short hlen
  constructor
  · rw [name_listener_add_first_ok f u hfind]
    cases st.name_listener_initialized <;> simp [isAddMatch, hms]
  · have hcbfind : name_callback_find d.callbacks f u = some ⟨f, u⟩ := by
      simp [name_callback_find, hone, List.find?_cons]
    have hcbs : removeFirst (fun cb => cb.func == f && cb.user_data == u) d.callbacks
        = [] := by
      simp [hone, removeFirst]
    simp [name_listener_remove, hfind2, hcbfind, hcbs, hms]

/-- Witness for C7 (amended) at the name `svc`. -/
theorem C7_filter_string_witness :
    ("svc" : String).length ≤ 67 ∧
    ((name_listener_add allOkEnv initState "svc" 1 2).2.2.filter isAddMatch
        = [BusCall.addMatch ("interface=" ++ DBUS_INTERFACE_DBUS
            ++ ",member=NameOwnerChanged,arg0=" ++ "svc")]
     ∧ (name_listener_remove ⟨true⟩ ⟨true, [⟨"svc", [⟨1, 2⟩]⟩]⟩ "svc" 1 2).2.2
        = [BusCall.removeMatch ("interface=" ++ DBUS_INTERFACE_DBUS
            ++ ",member=NameOwnerChanged,arg0=" ++ "svc")]) :=
  ⟨by decide, C7_filter_string initState ⟨true, [⟨"svc", [⟨1, 2⟩]⟩]⟩ "svc" 1 2
      ⟨"svc", [⟨1, 2⟩]⟩ (by decide) rfl rfl rfl⟩

/-- C7 counterexample: for a 68-character name the filter string handed to
`dbus_bus_add_match` is the 127-character truncation, not the full
concatenation the claim states. -/
theorem C7_counterexample :
    (name_listener_add allOkEnv initState (String.mk (List.replicate 68 'a')) 1 2).2.2
      = [BusCall.addFilter true,
         BusCall.addMatch (match_string (String.mk (List.replicate 68 'a')))]
    ∧ match_string (String.mk (List.replicate 68 'a'))
      ≠ "interface=" ++ DBUS_INTERFACE_DBUS ++ ",member=NameOwnerChanged,arg0="
          ++ String.mk (List.replicate 68 'a') := by
  decide

/-- C8: adding the identical (name, callback, context) tuple twice from a
fresh registry creates two independent registrations; a single `remove`
then returns success, deletes exactly the first of them, leaves the other
one in place and makes no bus call (the shared match rule stays). -/
theorem C8_duplicate_registrations (n : String) (f u : Nat) (renv : RemoveEnv) :
    (run initState [Op.add allOkEnv n f u, Op.add allOkEnv n f u]).1
        = ⟨true, [⟨n, [⟨f, u⟩, ⟨f, u⟩]⟩]⟩
    ∧ (name_listener_remove renv ⟨true, [⟨n, [⟨f, u⟩, ⟨f, u⟩]⟩]⟩ n f u).1 = 0
    ∧ (name_listener_remove renv ⟨true, [⟨n, [⟨f, u⟩, ⟨f, u⟩]⟩]⟩ n f u).2.1
        = ⟨true, [⟨n, [⟨f, u⟩]⟩]⟩
    ∧ (name_listener_remove renv ⟨true, [⟨n, [⟨f, u⟩, ⟨f, u⟩]⟩]⟩ n f u).2.2 = [] := by
  refine ⟨?_, ?_⟩
  · simp [run, step, name_listener_add, name_listener_remove, name_data_add,
      name_data_find, name_callback_find, removeFirst, updateFirst,
      List.find?_cons, allOkEnv, initState]
  · simp [name_listener_remove, name_data_find, name_callback_find, removeFirst,
      updateFirst, List.find?_cons]

/-! ### Dispatcher-attach lifecycle (C9) -/

/-- With the flag already set, `add` never touches the filter again: the
result state keeps the flag and the only possible bus call is one
`addMatch`. -/
theorem name_listener_add_initialized (env : AddEnv) (st : RegistryState)
    (n : String) (f u : Nat) (h : st.name_listener_initialized = true) :
    (name_listener_add env st n f u).2.1.name_listener_initialized = true
    ∧ ((name_listener_add env st n f u).2.2 = []
        ∨ (name_listener_add env st n f u).2.2 = [.addMatch (match_string n)]) := by
  obtain ⟨b, ls⟩ := st
  cases h
  simp only [name_listener_add, Bool.not_true, Bool.false_and, Bool.false_eq_true,
    if_false, if_true, List.nil_append]
  constructor
  · split
    · rfl
    · split <;> rfl
  · split
    · exact Or.inl rfl
    · split <;> exact Or.inr rfl

/-- With the flag still unset and a successful filter attach, `add` sets
the flag and its bus calls start with the one successful attach, followed
by at most one `addMatch`. -/
theorem name_listener_add_uninitialized (env : AddEnv) (st : RegistryState)
    (n : String) (f u : Nat) (hb : st.name_listener_initialized = false)
    (hf : env.add_filter_ok = true) :
    (name_listener_add env st n f u).2.1.name_listener_initialized = true
    ∧ ((name_listener_add env st n f u).2.2 = [.addFilter true]
        ∨ (name_listener_add env st n f u).2.2
            = [.addFilter true, .addMatch (match_string n)]) := by
  obtain ⟨b, ls⟩ := st
  cases hb
  simp only [name_listener_add, hf, Bool.not_true, Bool.and_false, Bool.false_eq_true,
    if_false, if_true, Bool.not_false, Bool.true_and, List.singleton_append]
  constructor
  · split
    · rfl
    · split <;> rfl
  · split
    · exact Or.inl rfl
    · split <;> exact Or.inr rfl

/-- A `remove` never touches the flag and can only call `removeMatch`. -/
theorem name_listener_remove_flag_calls (env : RemoveEnv) (st : RegistryState)
    (n : String) (f u : Nat) :
    (name_listener_remove env st n f u).2.1.name_listener_initialized
        = st.name_listener_initialized
    ∧ ((name_listener_remove env st n f u).2.2 = []
        ∨ (name_listener_remove env st n f u).2.2 = [.removeMatch (match_string n)]) := by
  cases hfind : name_data_find st.name_listeners n with
  | none => simp [name_listener_remove, hfind]
  | some d =>
    cases hcb : name_callback_find d.callbacks f u with
    | none => simp [name_listener_remove, hfind, hcb]
    | some cb =>
      simp only [name_listener_remove, hfind, hcb]
      constructor
      · split
        · rfl
        · split <;> rfl
      · split
        · exact Or.inl rfl
        · split <;> exact Or.inr rfl

/-- Every bus call a `step` makes once the flag is set is a match-rule
call, never a filter attach, and the flag stays set. -/
theorem step_initialized (st : RegistryState) (op : Op)
    (h : st.name_listener_initialized = true) :
    (step st op).1.name_listener_initialized = true
    ∧ (step st op).2.filter isAddFilterCall = [] := by
  cases op with
  | add env n f u =>
    obtain ⟨hflag, hcalls⟩ := name_listener_add_initialized env st n f u h
    refine ⟨hflag, ?_⟩
    rcases hcalls with hc | hc <;> simp [step, hc, isAddFilterCall]
  | remove env n f u =>
    obtain ⟨hflag, hcalls⟩ := name_listener_remove_flag_calls env st n f u
    refine ⟨by simpa [step, hflag] using h, ?_⟩
    rcases hcalls with hc | hc <;> simp [step, hc, isAddFilterCall]
  | dispatch msg =>
    exact ⟨by simpa [step] using h, by simp [step]⟩

/-- Once the flag is set, a whole run keeps it set and never calls the
filter attach again. -/
theorem run_initialized (st : RegistryState) (ops : List Op)
    (h : st.name_listener_initialized = true) :
    (run st ops).1.name_listener_initialized = true
    ∧ (run st ops).2.filter isAddFilterCall = [] := by
  induction ops generalizing st with
  | nil => exact ⟨h, rfl⟩
  | cons op ops ih =>
    obtain ⟨h1, h2⟩ := step_initialized st op h
    obtain ⟨h3, h4⟩ := ih (step st op).1 h1
    exact ⟨by simpa [run] using h3, by simp [run, List.filter_append, h2, h4]⟩

/-- A successful attach is in particular a filter call. -/
theorem filter_attachOk_eq_nil {l : List BusCall}
    (h : l.filter isAddFilterCall = []) : l.filter isAttachOk = [] := by
  rw [List.filter_eq_nil_iff] at h ⊢
  intro c hc hattach
  apply h c hc
  cases c <;> simp_all [isAttachOk, isAddFilterCall]

/-- Over any run, the filter is successfully attached at most once. -/
theorem run_attachOk_le_one (st : RegistryState) (ops : List Op) :
    ((run st ops).2.filter isAttachOk).length ≤ 1 := by
  induction ops generalizing st with
  | nil => simp [run]
  | cons op ops ih =>
    by_cases hb : st.name_listener_initialized = true
    · have h := (run_initialized st (op :: ops) hb).2
      simp [filter_attachOk_eq_nil h]
    · have hb' : st.name_listener_initialized = false := by
        cases hfl : st.name_listener_initialized
        · rfl
        · exact absurd hfl hb
      cases op with
      | add env n f u =>
        cases hf : env.add_filter_ok with
        | false =>
          have hstep : step st (Op.add env n f u) = (st, [BusCall.addFilter false]) := by
            obtain ⟨b, ls⟩ := st
            cases hb'
            simp [step, name_listener_add, hf]
          rw [run, hstep]
          simpa [List.filter_append, isAttachOk] using ih st
        | true =>
          obtain ⟨hflag, hcalls⟩ := name_listener_add_uninitialized env st n f u hb' hf
          have hdone := (run_initialized (step st (Op.add env n f u)).1 ops
            (by simpa [step] using hflag)).2
          have hrest : ((run (step st (Op.add env n f u)).1 ops).2.filter isAttachOk)
              = [] := filter_attachOk_eq_nil hdone
          rw [run]
          simp only [step] at hrest
          rcases hcalls with hc | hc <;>
            simp [List.filter_append, step, hc, isAttachOk, hrest]
      | remove env n f u =>
        obtain ⟨hflag, hcalls⟩ := name_listener_remove_flag_calls env st n f u
        have hnext : (run (step st (Op.remove env n f u)).1 ops).2.filter isAttachOk
            = (run (step st (Op.remove env n f u)).1 ops).2.filter isAttachOk := rfl
        rw [run]
        rcases hcalls with hc | hc <;>
          simpa [List.filter_append, step, hc, isAttachOk] using
            ih (step st (Op.remove env n f u)).1
      | dispatch msg =>
        rw [run]
        simpa [List.filter_append, step] using ih (step st (Op.dispatch msg)).1

/-- Before the first successful attach, no match rule is installed: in the
flat bus-call trace of a run started with the flag unset, everything before
the first successful `addFilter` is free of `addMatch` calls. -/
theorem run_no_match_before_attach (st : RegistryState) (ops : List Op)
    (hb : st.name_listener_initialized = false) :
    (((run st ops).2.takeWhile (fun c => !isAttachOk c)).filter isAddMatch) = [] := by
  induction ops generalizing st with
  | nil => simp [run]
  | cons op ops ih =>
    cases op with
    | add env n f u =>
      cases hf : env.add_filter_ok with
      | false =>
        have hstep : step st (Op.add env n f u) = (st, [BusCall.addFilter false]) := by
          obtain ⟨b, ls⟩ := st
          cases hb
          simp [step, name_listener_add, hf]
        rw [run, hstep]
        simpa [List.takeWhile_cons, isAttachOk, isAddMatch] using ih st hb
      | true =>
        obtain ⟨hflag, hcalls⟩ := name_listener_add_uninitialized env st n f u hb hf
        rw [run]
        have hsc : (step st (Op.add env n f u)).2 = (name_listener_add env st n f u).2.2 := by
          simp [step]
        rcases hcalls with hc | hc <;>
          simp [hsc, hc, List.takeWhile_cons, isAttachOk]
    | remove env n f u =>
      obtain ⟨hflag, hcalls⟩ := name_listener_remove_flag_calls env st n f u
      have hb2 : (step st (Op.remove env n f u)).1.name_listener_initialized = false := by
        simpa [step, hflag] using hb
      rw [run]
      rcases hcalls with hc | hc <;>
        simpa [step, hc, List.takeWhile_cons, isAttachOk, isAddMatch] using
          ih (step st (Op.remove env n f u)).1 hb2
    | dispatch msg =>
      have hb2 : (step st (Op.dispatch msg)).1.name_listener_initialized = false := by
        simpa [step] using hb
      rw [run]
      simpa [step] using ih (step st (Op.dispatch msg)).1 hb2

/-- C9 (amended): across every operation sequence from the initial state,
the dispatcher is successfully attached at most once; no match rule is
ever installed before the first successful attach; and once the flag is
set it stays set and no later operation calls the filter attach again.
The flag is set by the first `add` whose attach succeeds, which happens
before — and even without — the creation of the first subscription. -/
theorem C9_attach_once (ops1 ops2 : List Op) :
    (((run initState (ops1 ++ ops2)).2.filter isAttachOk).length ≤ 1)
    ∧ ((((run initState (ops1 ++ ops2)).2.takeWhile (fun c => !isAttachOk c)).filter
          isAddMatch) = [])
    ∧ ((run initState ops1).1.name_listener_initialized = true →
        (run (run initState ops1).1 ops2).1.name_listener_initialized = true
        ∧ (run (run initState ops1).1 ops2).2.filter isAddFilterCall = []) :=
  ⟨run_attachOk_le_one initState (ops1 ++ ops2),
   run_no_match_before_attach initState (ops1 ++ ops2) rfl,
   fun h => run_initialized (run initState ops1).1 ops2 h⟩

/-- Witness for C9 (amended): one add, then a later add for another name. -/
theorem C9_attach_once_witness :
    ((run initState [Op.add allOkEnv "svc" 1 2]).1.name_listener_initialized = true)
    ∧ (((run initState ([Op.add allOkEnv "svc" 1 2] ++ [Op.add allOkEnv "abc" 3 4])).2.filter
          isAttachOk).length ≤ 1)
    ∧ ((run (run initState [Op.add allOkEnv "svc" 1 2]).1 [Op.add allOkEnv "abc" 3 4]).2.filter
          isAddFilterCall = []) :=
  ⟨by decide,
   (C9_attach_once [Op.add allOkEnv "svc" 1 2] [Op.add allOkEnv "abc" 3 4]).1,
   ((C9_attach_once [Op.add allOkEnv "svc" 1 2] [Op.add allOkEnv "abc" 3 4]).2.2
      (by decide)).2⟩

/-- C9 counterexample: on the very first `add` the dispatcher is attached
and the flag set before any subscription exists; when the callback
allocation then fails, the trace ends with the flag set although no
subscription was ever created — the flag is set on the first
successfully-attaching `add` call, not on the first subscription ever
created as the claim states. -/
theorem C9_counterexample :
    (run initState [Op.add ⟨true, false, true, true, true⟩ "svc" 1 2]).1 = ⟨true, []⟩
    ∧ (run initState [Op.add ⟨true, false, true, true, true⟩ "svc" 1 2]).2
        = [BusCall.addFilter true] := by
  decide

/-! ### Frame property (C10) -/

/-- The listener list a completed `add` leaves behind is one of: untouched,
the `name_data_add` result, or that result rolled back for the same name. -/
theorem name_listener_add_listeners (env : AddEnv) (st : RegistryState)
    (n : String) (f u : Nat) :
    (name_listener_add env st n f u).2.1.name_listeners = st.name_listeners
    ∨ (name_listener_add env st n f u).2.1.name_listeners
        = (name_data_add env st.name_listeners n f u).2
    ∨ (name_listener_add env st n f u).2.1.name_listeners
        = name_data_remove (name_data_add env st.name_listeners n f u).2 n f u := by
  obtain ⟨b, ls⟩ := st
  simp only [name_listener_add]
  split
  · exact Or.inl rfl
  · split
    · exact Or.inr (Or.inl rfl)
    · split
      · exact Or.inr (Or.inl rfl)
      · exact Or.inr (Or.inr rfl)

/-- An `add` for one name leaves the entry of every other name unchanged. -/
theorem name_listener_add_frame (env : AddEnv) (st : RegistryState) (n : String)
    (f u : Nat) {m : String} (h : m ≠ n) :
    name_data_find (name_listener_add env st n f u).2.1.name_listeners m
      = name_data_find st.name_listeners m := by
  rcases name_listener_add_listeners env st n f u with h1 | h1 | h1 <;> rw [h1]
  · exact name_data_find_frame_add env st.name_listeners n f u h
  · rw [name_data_find_frame_remove _ n f u h]
    exact name_data_find_frame_add env st.name_listeners n f u h

/-- A `remove` for one name leaves the entry of every other name unchanged. -/
theorem name_listener_remove_frame (env : RemoveEnv) (st : RegistryState) (n : String)
    (f u : Nat) {m : String} (h : m ≠ n) :
    name_data_find (name_listener_remove env st n f u).2.1.name_listeners m
      = name_data_find st.name_listeners m := by
  cases hfind : name_data_find st.name_listeners n with
  | none => simp [name_listener_remove, hfind]
  | some d =>
    cases hcb : name_callback_find d.callbacks f u with
    | none => simp [name_listener_remove, hfind, hcb]
    | some cb =>
      have hupd : ∀ cbs : List NameCallback,
          name_data_find (updateFirst (fun x => x.name == n)
            (fun x => { x with callbacks := cbs }) st.name_listeners) m
          = name_data_find st.name_listeners m := fun cbs =>
        find?_updateFirst fun x hx =>
          ⟨name_beq_false_of_ne h hx, name_beq_false_of_ne h hx⟩
      simp only [name_listener_remove, hfind, hcb]
      split
      · exact hupd _
      · split
        · exact hupd _
        · rw [name_data_find_frame_remove _ n f u h]
          exact hupd _

/-- The dispatcher leaves the entry of every other name unchanged. -/
theorem name_exit_filter_frame (ls : List NameData) (msg : DBusMessage) {m : String}
    (h : m ≠ msg.arg_name) :
    name_data_find (name_exit_filter ls msg).2 m = name_data_find ls m := by
  simp only [name_exit_filter]
  split
  · rfl
  · split
    · rfl
    · split
      · rfl
      · cases hfind : name_data_find ls msg.arg_name with
        | none => simp [hfind]
        | some d =>
          simp only [hfind]
          exact find?_removeFirst fun x hx => name_beq_false_of_ne h hx

/-- C10: every operation about one service name — `add`, `remove`, or the
dispatch of a notification naming it — leaves the registry entry of every
other name unchanged, in success and failure outcomes alike. -/
theorem C10_other_names_untouched (st : RegistryState) (op : Op) (m : String)
    (h : m ≠ opName op) :
    name_data_find (step st op).1.name_listeners m
      = name_data_find st.name_listeners m := by
  cases op with
  | add env n f u => simpa [step] using name_listener_add_frame env st n f u h
  | remove env n f u => simpa [step] using name_listener_remove_frame env st n f u h
  | dispatch msg => simpa [step] using name_exit_filter_frame st.name_listeners msg h

/-- Witness for C10: an add for one name leaves another name's entry. -/
theorem C10_other_names_untouched_witness :
    ("svc" : String) ≠ opName (Op.add allOkEnv "other" 3 4) ∧
    name_data_find (step ⟨true, [⟨"svc", [⟨1, 2⟩]⟩]⟩ (Op.add allOkEnv "other" 3 4)).1.name_listeners
        "svc"
      = name_data_find (⟨true, [⟨"svc", [⟨1, 2⟩]⟩]⟩ : RegistryState).name_listeners "svc" :=
  ⟨by decide, C10_other_names_untouched ⟨true, [⟨"svc", [⟨1, 2⟩]⟩]⟩
      (Op.add allOkEnv "other" 3 4) "svc" (by decide)⟩

end DbusCommon
